import Mathlib

/-!
Verification of the Diskpart GUI core (script builder, output parser, command
executor) against its specification.

The TypeScript core is shallowly embedded here.  JavaScript strings are
modelled as `List Char` (`Str`); JavaScript numbers appearing as validated
command parameters are modelled as `ℚ` (so that `Number.isInteger` is
expressible as `den = 1`); `parseInt` results that may be `NaN` are modelled
as `Option Int`.  Fallible functions return `Except`.  All definitions follow
src/main/diskpart/executor.ts (executor, parser, errors modules) and
src/shared/types.ts (command builder) of the repository.
-/

namespace Diskpart

/-- JavaScript strings, modelled as lists of characters. -/
abbrev Str := List Char

/-- ASCII whitespace as matched by the JS `\s` class and `trim` on the
character set the external tool emits. -/
def isWs (c : Char) : Bool :=
  c = ' ' || c = '\t' || c = '\n' || c = '\r'

/-- ASCII decimal digit, the JS `\d` class. -/
def isDigit (c : Char) : Bool :=
  '0' ≤ c && c ≤ '9'

/-- Per-character lowercasing for the ASCII range (JS `toLowerCase` on the
tool's ASCII output). -/
def charLower (c : Char) : Char :=
  if 'A' ≤ c ∧ c ≤ 'Z' then Char.ofNat (c.toNat + 32) else c

/-- Per-character uppercasing for the ASCII range (JS `toUpperCase`). -/
def charUpper (c : Char) : Char :=
  if 'a' ≤ c ∧ c ≤ 'z' then Char.ofNat (c.toNat - 32) else c

/-- JS `String.prototype.toLowerCase` (ASCII range). -/
def jsToLower (s : Str) : Str := s.map charLower

/-- JS `String.prototype.toUpperCase` (ASCII range). -/
def jsToUpper (s : Str) : Str := s.map charUpper

/-- Boolean prefix test on character lists. -/
def isPrefixOfB : Str → Str → Bool
  | [], _ => true
  | _ :: _, [] => false
  | a :: as, b :: bs => a == b && isPrefixOfB as bs

/-- JS `String.prototype.includes`: `containsSub needle hay` is true when
`needle` occurs contiguously inside `hay`. -/
def containsSub (needle : Str) : Str → Bool
  | [] => isPrefixOfB needle []
  | b :: bs => isPrefixOfB needle (b :: bs) || containsSub needle bs

/-- JS `String.prototype.startsWith`. -/
def startsWith (p s : Str) : Bool := isPrefixOfB p s

/-- JS `String.prototype.trim` (leading and trailing whitespace removed). -/
def trim (s : Str) : Str :=
  ((s.dropWhile isWs).reverse.dropWhile isWs).reverse

/-- JS `String.prototype.split('\n')`: split into lines at every newline;
`n` pieces for `n - 1` newlines, empty pieces preserved. -/
def linesJS : Str → List Str
  | [] => [[]]
  | c :: cs =>
    if c = '\n' then [] :: linesJS cs
    else
      match linesJS cs with
      | [] => [[c]]
      | l :: ls => (c :: l) :: ls

/-- Helper for `words`: accumulates the current word (reversed). -/
def wordsAux (cur : Str) : Str → List Str
  | [] => if cur = [] then [] else [cur.reverse]
  | c :: rest =>
    if isWs c then
      if cur = [] then wordsAux [] rest else cur.reverse :: wordsAux [] rest
    else wordsAux (c :: cur) rest

/-- JS `String.prototype.split(/\s+/)` as applied by the parser, which only
ever splits already-trimmed lines: the whitespace-separated words of `s`
(on a trimmed string JS produces exactly these, with no empty pieces). -/
def words (s : Str) : List Str := wordsAux [] s

/-- Numeric value of a digit string (the defined result of
`parseInt(m, 10)` on a `\d+` regex capture). -/
def natOfDigits (ds : Str) : Nat :=
  ds.foldl (fun n c => n * 10 + (c.toNat - '0'.toNat)) 0

/-- JS `parseInt(s, 10)`: skip leading whitespace, optional sign, then read
leading decimal digits; `none` models `NaN` (no digits found). -/
def jsParseInt (s : Str) : Option Int :=
  let t := s.dropWhile isWs
  let signed : Bool × Str :=
    match t with
    | '-' :: r => (true, r)
    | '+' :: r => (false, r)
    | r => (false, r)
  let ds := signed.2.takeWhile isDigit
  if ds = [] then none
  else some (if signed.1 then -(natOfDigits ds : Int) else (natOfDigits ds : Int))

/-- Unit letters of the size regex class `[KMGT]`. -/
def isKMGT (c : Char) : Bool :=
  c = 'K' || c = 'M' || c = 'G' || c = 'T'

/-- Byte multiplier for a unit letter, the `multipliers` record of
`parseSize` (K→1024, M→1024², G→1024³, T→1024⁴, plain B→1). -/
def unitMultiplier (c : Char) : Nat :=
  if c = 'K' then 1024
  else if c = 'M' then 1024 * 1024
  else if c = 'G' then 1024 * 1024 * 1024
  else if c = 'T' then 1024 * 1024 * 1024 * 1024
  else 1

/-- The `[KMGT]?B` piece of the `parseSize` regex (case-insensitive via the
`/i` flag), applied where the greedy `\s*` stopped: returns the byte
multiplier of the matched unit.  The optional `[KMGT]` needs no
backtracking because a `KMGT` letter is never `B`. -/
def sizeTail (r : Str) : Option Nat :=
  match r with
  | [] => none
  | c :: rest =>
    if isKMGT (charUpper c) then
      match rest with
      | [] => none
      | c2 :: _ => if charUpper c2 = 'B' then some (unitMultiplier (charUpper c)) else none
    else if charUpper c = 'B' then some 1
    else none

/-- One attempt of the `parseSize` regex `/(\d+)\s*([KMGT]?B)/i` at a fixed
start position: greedy `\d+`, greedy `\s*`, then the unit.  Greediness needs
no backtracking here because digits, whitespace and unit letters are
pairwise disjoint character classes.  Returns the numeric value and the
byte multiplier of the matched unit (the code uppercases `match[2]` before
the multiplier lookup, hence the case-insensitive comparisons). -/
def matchSizeAt (l : Str) : Option (Nat × Nat) :=
  let ds := l.takeWhile isDigit
  if ds = [] then none
  else
    match sizeTail ((l.dropWhile isDigit).dropWhile isWs) with
    | none => none
    | some m => some (natOfDigits ds, m)

/-- Leftmost search of the `parseSize` regex: try every start position in
order, as the JS engine does for an unanchored pattern. -/
def sizeFind : Str → Option (Nat × Nat)
  | [] => none
  | c :: rest =>
    match matchSizeAt (c :: rest) with
    | some r => some r
    | none => sizeFind rest

/-- `parseSize` of the parser module: value times unit multiplier, `0` when
the size regex never matches. -/
def parseSize (s : Str) : Nat :=
  match sizeFind s with
  | none => 0
  | some (v, m) => v * m

/-! ### Data model (src/shared/types.ts) -/

/-- `DiskInfo.status`. -/
inductive DiskStatus | online | offline | noMedia
deriving DecidableEq, Repr

/-- `DiskInfo.diskType`. -/
inductive DiskType | basic | dynamic
deriving DecidableEq, Repr

/-- `DiskInfo.partitionStyle`. -/
inductive PartitionStyle | mbr | gpt
deriving DecidableEq, Repr

/-- `PartitionInfo.type`. -/
inductive PartType | primary | extended | logical
deriving DecidableEq, Repr

/-- `VolumeInfo.type`. -/
inductive VolumeType | partitionVol | removable | cdrom
deriving DecidableEq, Repr

/-- `VolumeInfo.status`. -/
inductive VolumeStatus | healthy | failed
deriving DecidableEq, Repr

/-- `PartitionInfo` as produced by `parseListPartition` (the `status` field
is always the `'Healthy'` default there; `fileSystem`/`label`/`driveLetter`
are never set by the list parser and are omitted).  `id` is `Option Int`
because `parseInt` may produce `NaN` (modelled `none`). -/
structure PartitionInfo where
  id : Option Int
  type : PartType
  size : Nat
  offset : Nat
deriving DecidableEq, Repr

/-- `DiskInfo` as produced by `parseListDisk`. -/
structure DiskInfo where
  id : Option Int
  status : DiskStatus
  size : Nat
  free : Nat
  isSystemDisk : Bool
  isBootDisk : Bool
  diskType : DiskType
  partitionStyle : PartitionStyle
  partitions : List PartitionInfo
deriving DecidableEq, Repr

/-- `VolumeInfo` as produced by `parseListVolume`. -/
structure VolumeInfo where
  letter : Option Str
  label : Option Str
  fileSystem : Str
  type : VolumeType
  size : Nat
  status : VolumeStatus
  info : Str
deriving DecidableEq, Repr

/-! ### Normalizers (parser module) -/

/-- `normalizeStatus`: free-text disk status to the closed enum, defaulting
to `Offline`. -/
def normalizeStatus (status : Str) : DiskStatus :=
  let normalized := jsToLower (trim status)
  if containsSub ("online".data) normalized then .online
  else if containsSub ("offline".data) normalized then .offline
  else if containsSub ("no media".data) normalized then .noMedia
  else .offline

/-- `normalizeVolumeType`: free-text volume type to the closed enum,
defaulting to `Partition`. -/
def normalizeVolumeType (type : Str) : VolumeType :=
  let normalized := jsToLower (trim type)
  if containsSub ("removable".data) normalized then .removable
  else if containsSub ("cd".data) normalized || containsSub ("dvd".data) normalized then .cdrom
  else .partitionVol

/-- `normalizePartitionType`: free-text partition type to the closed enum,
defaulting to `Primary`. -/
def normalizePartitionType (type : Str) : PartType :=
  let normalized := jsToLower (trim type)
  if containsSub ("extended".data) normalized then .extended
  else if containsSub ("logical".data) normalized then .logical
  else .primary

/-! ### The disk-row regex

`parseListDisk` matches each data line against
`/Disk\s+(\d+)\s+(\S+(?:\s+\S+)*?)\s+(\d+\s+[KMGT]?B)\s+(\d+\s+[KMGT]?B)(?:\s+(\*))?\s*(?:\s+(\*))?/`
(no flags, so case-sensitive).  The matcher below follows the engine's
semantics piece by piece.  Greedy `\d+`/`\s+`/`\S+` pieces never need
backtracking because each is followed by a disjoint character class; the
status group `(\S+(?:\s+\S+)*?)` is lazy, so the continuation is attempted
before the group is extended by another `\s+\S+` block. -/

/-- Captures of the disk-row regex: groups 1-4 and the two optional star
markers. -/
structure DiskCaps where
  diskNum : Str
  status : Str
  sizeStr : Str
  freeStr : Str
  dynMarker : Option Str
  gptMarker : Option Str
deriving DecidableEq, Repr

/-- Match `(\d+\s+[KMGT]?B)` (case-sensitive, mandatory inner whitespace)
at the start of `l`; returns the captured substring and the rest. -/
def matchSizeTok (l : Str) : Option (Str × Str) :=
  let ds := l.takeWhile isDigit
  if ds = [] then none
  else
    let r1 := l.dropWhile isDigit
    let ws := r1.takeWhile isWs
    if ws = [] then none
    else
      match r1.dropWhile isWs with
      | [] => none
      | c :: rest =>
        if isKMGT c then
          match rest with
          | [] => none
          | c2 :: rest2 =>
            if c2 = 'B' then some (ds ++ ws ++ [c, c2], rest2) else none
        else if c = 'B' then some (ds ++ ws ++ [c], rest) else none

/-- The tail of the disk regex after the status group:
`\s+(\d+\s+[KMGT]?B)\s+(\d+\s+[KMGT]?B)(?:\s+(\*))?\s*(?:\s+(\*))?`.
Returns captures 3 and 4 and the optional star markers. -/
def matchDiskTail (l : Str) : Option (Str × Str × Option Str × Option Str) :=
  let ws1 := l.takeWhile isWs
  if ws1 = [] then none
  else
    match matchSizeTok (l.dropWhile isWs) with
    | none => none
    | some (size3, r3) =>
      let ws2 := r3.takeWhile isWs
      if ws2 = [] then none
      else
        match matchSizeTok (r3.dropWhile isWs) with
        | none => none
        | some (size4, r4) =>
          -- first optional group (?:\s+(\*))?: greedy, taken when the
          -- whitespace run is nonempty and a star follows it
          let ws3 := r4.takeWhile isWs
          let afterOpt1 : Option Str × Str :=
            match ws3, r4.dropWhile isWs with
            | _ :: _, '*' :: r5 => (some ['*'], r5)
            | _, _ => (none, r4)
          -- \s* then the second optional group; after the greedy \s* the
          -- next character is never whitespace, so the second group can
          -- only match when written exactly as the engine evaluates it
          let r6 := afterOpt1.2.dropWhile isWs
          let gpt : Option Str :=
            match r6.takeWhile isWs, r6.dropWhile isWs with
            | _ :: _, '*' :: _ => some ['*']
            | _, _ => none
          some (size3, size4, afterOpt1.1, gpt)

/-- The lazy status loop: `tok` is the text matched by the status group so
far, `rest` the remaining input.  Try the continuation (`matchDiskTail`)
first; on failure extend the group by one `\s+\S+` block.  `fuel` bounds
the recursion (each extension consumes at least two characters, so
`rest.length + 1` steps always suffice and the bound is never hit before
the input runs out). -/
def statusLoop : Nat → Str → Str → Option (Str × Str × Str × Option Str × Option Str)
  | 0, _, _ => none
  | fuel + 1, tok, rest =>
    match matchDiskTail rest with
    | some (s3, s4, dyn, gpt) => some (tok, s3, s4, dyn, gpt)
    | none =>
      let ws := rest.takeWhile isWs
      if ws = [] then none
      else
        let rest2 := rest.dropWhile isWs
        let t2 := rest2.takeWhile (fun c => ¬ isWs c)
        if t2 = [] then none
        else statusLoop fuel (tok ++ ws ++ t2) (rest2.dropWhile (fun c => ¬ isWs c))

/-- Attempt the full disk-row regex at a fixed start position. -/
def matchDiskAt (l : Str) : Option DiskCaps :=
  if isPrefixOfB ("Disk".data) l then
    let r0 := l.drop 4
    let ws1 := r0.takeWhile isWs
    if ws1 = [] then none
    else
      let r1 := r0.dropWhile isWs
      let num := r1.takeWhile isDigit
      if num = [] then none
      else
        let r2 := r1.dropWhile isDigit
        let ws2 := r2.takeWhile isWs
        if ws2 = [] then none
        else
          let r3 := r2.dropWhile isWs
          let t0 := r3.takeWhile (fun c => ¬ isWs c)
          if t0 = [] then none
          else
            let r4 := r3.dropWhile (fun c => ¬ isWs c)
            match statusLoop (r4.length + 1) t0 r4 with
            | none => none
            | some (st, s3, s4, dyn, gpt) =>
              some ⟨num, st, s3, s4, dyn, gpt⟩
  else none

/-- Leftmost unanchored match of the disk-row regex (`line.match(...)`):
try each start position left to right. -/
def matchDiskRow : Str → Option DiskCaps
  | [] => matchDiskAt []
  | c :: rest =>
    match matchDiskAt (c :: rest) with
    | some r => some r
    | none => matchDiskRow rest

/-! ### List parsers (parser module) -/

/-- Body of the `parseListDisk` row loop: skipped lines and non-matching
lines yield `none`. -/
def parseDiskLine (line : Str) : Option DiskInfo :=
  if line = [] || ¬ startsWith ("Disk ".data) line then none
  else
    match matchDiskRow line with
    | none => none
    | some caps =>
      some
        { id := jsParseInt caps.diskNum
          status := normalizeStatus caps.status
          size := parseSize caps.sizeStr
          free := parseSize caps.freeStr
          isSystemDisk := false
          isBootDisk := false
          diskType := if caps.dynMarker = some ['*'] then .dynamic else .basic
          partitionStyle := if caps.gptMarker = some ['*'] then .gpt else .mbr
          partitions := [] }

/-- `parseListDisk`: locate the `"Disk ###"` header among the trimmed
lines (raising `ParseError` when absent), skip the header and separator,
and collect every data line the row regex accepts. -/
def parseListDisk (output : Str) : Except Str (List DiskInfo) :=
  let lines := (linesJS output).map trim
  match lines.findIdx? (fun line => containsSub ("Disk ###".data) line) with
  | none => .error ("Could not find disk list header in output".data)
  | some headerIndex =>
    .ok ((lines.drop (headerIndex + 2)).filterMap parseDiskLine)

/-- JS `parts[i]` under string concatenation: an out-of-range access is
`undefined`, which `+` coerces to the text `"undefined"`. -/
def jsIdxStr (parts : List Str) (i : Nat) : Str :=
  (parts.get? i).getD ("undefined".data)

/-- JS `parts[i] || dflt`: an out-of-range access (`undefined`) and the
empty string are both falsy. -/
def jsIdxOr (parts : List Str) (i : Nat) (dflt : Str) : Str :=
  match parts.get? i with
  | none => dflt
  | some v => if v = [] then dflt else v

/-- Space-join, JS `Array.prototype.join(' ')`. -/
def joinSpace : List Str → Str
  | [] => []
  | [t] => t
  | t :: rest => t ++ ' ' :: joinSpace rest

/-- The known file-system comparison list of `parseListVolume`.  Note the
mixed-case `exFAT` entry: it is compared against `p.toUpperCase()` and can
therefore never match. -/
def volumeFsList : List Str :=
  ["NTFS".data, "FAT32".data, "FAT".data, "exFAT".data, "RAW".data]

/-- Body of the `parseListVolume` row loop. -/
def parseVolumeLine (line : Str) : Option VolumeInfo :=
  if line = [] || ¬ startsWith ("Volume ".data) line then none
  else
    let parts := words line
    if parts.length < 7 then none
    else
      let p2 := (parts.get? 2).getD []
      let letter := if p2 ≠ [] ∧ p2.length = 1 then some p2 else none
      let fsIndex :=
        match parts.findIdx? (fun p => (jsToUpper p) ∈ volumeFsList) with
        | some i => i
        | none => 4
      let label :=
        if fsIndex > 3 then some (joinSpace ((parts.drop 3).take (fsIndex - 3)))
        else none
      let fileSystem := jsIdxOr parts fsIndex ("Unknown".data)
      let type := jsIdxOr parts (fsIndex + 1) ("Partition".data)
      let sizeStr := jsIdxStr parts (fsIndex + 2) ++ ' ' :: jsIdxStr parts (fsIndex + 3)
      let status := jsIdxOr parts (fsIndex + 4) ("Unknown".data)
      let info := joinSpace (parts.drop (fsIndex + 5))
      some
        { letter := letter
          label := match label with
                   | some l => if l = [] then none else some l
                   | none => none
          fileSystem := fileSystem
          type := normalizeVolumeType type
          size := parseSize sizeStr
          status := if status = ("Healthy".data) then .healthy else .failed
          info := info }

/-- `parseListVolume`: same header strategy with the `"Volume ###"`
marker. -/
def parseListVolume (output : Str) : Except Str (List VolumeInfo) :=
  let lines := (linesJS output).map trim
  match lines.findIdx? (fun line => containsSub ("Volume ###".data) line) with
  | none => .error ("Could not find volume list header in output".data)
  | some headerIndex =>
    .ok ((lines.drop (headerIndex + 2)).filterMap parseVolumeLine)

/-- Body of the `parseListPartition` row loop. -/
def parsePartitionLine (line : Str) : Option PartitionInfo :=
  if line = [] || ¬ startsWith ("Partition ".data) line then none
  else
    let parts := words line
    if parts.length < 5 then none
    else
      some
        { id := jsParseInt ((parts.get? 1).getD [])
          type := normalizePartitionType ((parts.get? 2).getD [])
          size := parseSize (jsIdxStr parts 3 ++ ' ' :: jsIdxStr parts 4)
          offset := parseSize (jsIdxStr parts 5 ++ ' ' :: jsIdxStr parts 6) }

/-- `parseListPartition`: same header strategy with the `"Partition ###"`
marker. -/
def parseListPartition (output : Str) : Except Str (List PartitionInfo) :=
  let lines := (linesJS output).map trim
  match lines.findIdx? (fun line => containsSub ("Partition ###".data) line) with
  | none => .error ("Could not find partition list header in output".data)
  | some headerIndex =>
    .ok ((lines.drop (headerIndex + 2)).filterMap parsePartitionLine)

/-! ### Error data (errors module)

The exception classes carry a machine `code` and a human `message`; the
embedding keeps both as a tagged value (raising is modelled by returning
`Except.error`). -/

/-- A raised `DiskpartError`: its `code` and `message`. -/
structure DiskpartErrorInfo where
  code : Str
  message : Str
deriving DecidableEq, Repr

/-- An `InvalidCommandError` value (code `INVALID_COMMAND`). -/
def invalidCommand (msg : Str) : DiskpartErrorInfo :=
  ⟨"INVALID_COMMAND".data, msg⟩

/-- Decimal rendering of a natural number, JS template interpolation of an
integral number. -/
def natToStr (n : Nat) : Str := (Nat.repr n).data

/-- JS rendering of a numeric parameter.  Validated parameters are rendered
only when integral; the non-integral rendering (which appears only inside
error messages) is abstracted as numerator/denominator text. -/
def jsNumToStr (q : ℚ) : Str :=
  if q.den = 1 then (toString q.num).data
  else (toString q.num).data ++ '/' :: natToStr q.den

/-! ### Script builder (src/shared/types.ts)

JS `number` parameters are modelled as `ℚ`, with `Number.isInteger n`
becoming `n.den = 1`. -/

/-- `buildSelectDiskCommand`. -/
def buildSelectDiskCommand (diskNumber : ℚ) : Except DiskpartErrorInfo Str :=
  if ¬ diskNumber.den = 1 ∨ diskNumber < 0 then
    .error (invalidCommand ("Invalid disk number: ".data ++ jsNumToStr diskNumber))
  else .ok ("select disk ".data ++ jsNumToStr diskNumber)

/-- `buildSelectPartitionCommand`. -/
def buildSelectPartitionCommand (partitionNumber : ℚ) : Except DiskpartErrorInfo Str :=
  if ¬ partitionNumber.den = 1 ∨ partitionNumber < 1 then
    .error (invalidCommand ("Invalid partition number: ".data ++ jsNumToStr partitionNumber))
  else .ok ("select partition ".data ++ jsNumToStr partitionNumber)

/-- `buildCreatePartitionCommand` (optional size in MB). -/
def buildCreatePartitionCommand (size : Option ℚ) : Except DiskpartErrorInfo Str :=
  match size with
  | some s =>
    if ¬ s.den = 1 ∨ s ≤ 0 then
      .error (invalidCommand ("Invalid partition size: ".data ++ jsNumToStr s))
    else .ok ("create partition primary size=".data ++ jsNumToStr s)
  | none => .ok ("create partition primary".data)

/-- The `validFileSystems` list of `buildFormatVolumeCommand` — note the
mixed-case `exFAT` entry, compared against the uppercased input. -/
def validFileSystems : List Str :=
  ["NTFS".data, "FAT32".data, "exFAT".data, "FAT".data]

/-- `buildFormatVolumeCommand` (file system, optional label, quick flag;
the TS default for `quick` is `true`).  A `none` or empty label is falsy in
JS, so the label clause and its length validation are skipped for it. -/
def buildFormatVolumeCommand (fileSystem : Str) (label : Option Str) (quick : Bool) :
    Except DiskpartErrorInfo Str :=
  let fsUpper := jsToUpper fileSystem
  if ¬ fsUpper ∈ validFileSystems then
    .error (invalidCommand ("Invalid file system: ".data ++ fileSystem ++
      ". Must be one of: NTFS, FAT32, exFAT, FAT".data))
  else
    let command := "format fs=".data ++ fsUpper
    let labelled : Except DiskpartErrorInfo Str :=
      match label with
      | some lab =>
        if lab = [] then .ok command
        else
          let maxLength := if fsUpper = ("NTFS".data) then 32 else 11
          if lab.length > maxLength then
            .error (invalidCommand ("Label too long: ".data ++ natToStr lab.length ++
              " characters (max ".data ++ natToStr maxLength ++ " for ".data ++ fsUpper ++ [')']))
          else .ok (command ++ " label=".data ++ '"' :: lab ++ ['"'])
      | none => .ok command
    match labelled with
    | .error e => .error e
    | .ok c => .ok (if quick then c ++ " quick".data else c)

/-- The `/^[A-Z]$/` test of the drive-letter builders. -/
def azTest (s : Str) : Bool :=
  match s with
  | [c] => 'A' ≤ c && c ≤ 'Z'
  | _ => false

/-- `buildAssignLetterCommand`. -/
def buildAssignLetterCommand (letter : Str) : Except DiskpartErrorInfo Str :=
  let upperLetter := jsToUpper letter
  if ¬ azTest upperLetter then
    .error (invalidCommand ("Invalid drive letter: ".data ++ letter ++ ". Must be A-Z".data))
  else .ok ("assign letter=".data ++ upperLetter)

/-- `buildRemoveLetterCommand`. -/
def buildRemoveLetterCommand (letter : Str) : Except DiskpartErrorInfo Str :=
  let upperLetter := jsToUpper letter
  if ¬ azTest upperLetter then
    .error (invalidCommand ("Invalid drive letter: ".data ++ letter ++ ". Must be A-Z".data))
  else .ok ("remove letter=".data ++ upperLetter)

/-- `buildExtendPartitionCommand` (optional size in MB). -/
def buildExtendPartitionCommand (size : Option ℚ) : Except DiskpartErrorInfo Str :=
  match size with
  | some s =>
    if ¬ s.den = 1 ∨ s ≤ 0 then
      .error (invalidCommand ("Invalid extend size: ".data ++ jsNumToStr s))
    else .ok ("extend size=".data ++ jsNumToStr s)
  | none => .ok ("extend".data)

/-- `buildShrinkPartitionCommand` (desired amount, optional minimum). -/
def buildShrinkPartitionCommand (desired : ℚ) (minimum : Option ℚ) :
    Except DiskpartErrorInfo Str :=
  if ¬ desired.den = 1 ∨ desired ≤ 0 then
    .error (invalidCommand ("Invalid shrink size: ".data ++ jsNumToStr desired))
  else
    match minimum with
    | some m =>
      if ¬ m.den = 1 ∨ m ≤ 0 then
        .error (invalidCommand ("Invalid minimum shrink size: ".data ++ jsNumToStr m))
      else .ok ("shrink desired=".data ++ jsNumToStr desired ++ " minimum=".data ++ jsNumToStr m)
    | none => .ok ("shrink desired=".data ++ jsNumToStr desired)

/-! ### Success classifier and error extraction (executor module) -/

/-- `isCommandSuccessful`: the heuristic output classifier, checks in
source order (positive markers, then negative markers, then list headers,
then non-blank output). -/
def isCommandSuccessful (output : Str) : Bool :=
  let lowerOutput := jsToLower output
  if containsSub ("diskpart successfully".data) lowerOutput then true
  else if containsSub ("completed successfully".data) lowerOutput then true
  else if containsSub ("error".data) lowerOutput then false
  else if containsSub ("failed".data) lowerOutput then false
  else if containsSub ("access is denied".data) lowerOutput then false
  else if containsSub ("cannot".data) lowerOutput then false
  else if containsSub ("invalid".data) lowerOutput then false
  else if containsSub ("not found".data) lowerOutput then false
  else if containsSub ("disk ###".data) lowerOutput ||
          containsSub ("volume ###".data) lowerOutput ||
          containsSub ("partition ###".data) lowerOutput then true
  else (trim output).length > 0

/-- `extractErrorFromOutput`: first trimmed line containing one of the
error indicator substrings. -/
def extractErrorFromOutput (output : Str) : Option Str :=
  ((linesJS output).map trim).find? (fun line =>
    let lowerLine := jsToLower line
    containsSub ("error".data) lowerLine ||
    containsSub ("failed".data) lowerLine ||
    containsSub ("denied".data) lowerLine ||
    containsSub ("cannot".data) lowerLine ||
    containsSub ("invalid".data) lowerLine ||
    containsSub ("not found".data) lowerLine)

/-! ### Command executor (executor module)

Effects are made explicit: an `ExecEnv` fixes what the collaborators do in
this call (the elevation probe's answer, whether the temp-script write
succeeds, and the subprocess outcome), and an `ExecTrace` records which
effects were performed. -/

/-- Outcome of the `execAsync` subprocess invocation: normal completion
with captured streams, a kill for timeout (`error.killed`/`SIGTERM`), or
any other rejection with its message. -/
inductive SpawnOutcome where
  | completed (stdout stderr : Str)
  | killed (msg : Str)
  | errored (msg : Str)
deriving DecidableEq, Repr

/-- The external collaborators of one executor call. -/
structure ExecEnv where
  isAdmin : Bool
  writeOk : Bool
  spawn : SpawnOutcome
deriving DecidableEq, Repr

/-- Which effects one executor call performed. -/
structure ExecTrace where
  scriptWritten : Bool
  spawned : Bool
deriving DecidableEq, Repr

/-- The `data` payload the executor attaches: `{output, stdout, stderr}` on
classified success, `{stdout, stderr}` on classified failure. -/
inductive ExecPayload where
  | full (output stdout stderr : Str)
  | streams (stdout stderr : Str)
deriving DecidableEq, Repr

/-- The `CommandResult` envelope of src/shared/types.ts, with the untyped
`data` field given a type parameter. -/
structure CommandResult (α : Type) where
  success : Bool
  message : Str
  errorCode : Option Str := none
  details : Option Str := none
  data : Option α := none
deriving DecidableEq, Repr

/-- JS `a || b` on strings (empty string is falsy). -/
def jsOrStr (a b : Str) : Str := if a = [] then b else a

/-- `executeDiskpartCommand`: privilege check, temp-script materialization,
subprocess invocation, classification, and error mapping, returning the
result envelope together with the effect trace. -/
def executeDiskpartCommand (env : ExecEnv) (command : Str) (timeout : Nat) :
    CommandResult ExecPayload × ExecTrace :=
  if ¬ env.isAdmin then
    ({ success := false
       message := "Administrator privileges required to execute Diskpart commands".data
       errorCode := some ("PRIVILEGE_ERROR".data)
       details := some ("Please restart the application as administrator".data) },
     ⟨false, false⟩)
  else if ¬ env.writeOk then
    -- createTempScript raises CommandExecutionError; the outer handler sees
    -- neither a kill signal nor an "access is denied" message and wraps it
    -- in the generic execution-error branch
    ({ success := false
       message := "Failed to execute Diskpart command".data
       errorCode := some ("COMMAND_EXECUTION_ERROR".data)
       details := some ("Failed to create temporary script file".data) },
     ⟨false, false⟩)
  else
    match env.spawn with
    | .completed stdout stderr =>
      let output := jsOrStr stdout (jsOrStr stderr [])
      if ¬ isCommandSuccessful output then
        ({ success := false
           message := match extractErrorFromOutput output with
                      | some m => jsOrStr m ("Command failed".data)
                      | none => "Command failed".data
           errorCode := some ("COMMAND_FAILED".data)
           details := some output
           data := some (.streams stdout stderr) },
         ⟨true, true⟩)
      else
        ({ success := true
           message := "Command executed successfully".data
           data := some (.full output stdout stderr) },
         ⟨true, true⟩)
    | .killed _ =>
      ({ success := false
         message := "Command timed out after ".data ++ natToStr timeout ++ "ms".data
         errorCode := some ("COMMAND_TIMEOUT".data)
         details := some ("Command exceeded timeout of ".data ++ natToStr timeout ++ "ms".data) },
       ⟨true, true⟩)
    | .errored msg =>
      if containsSub ("access is denied".data) (jsToLower msg) then
        ({ success := false
           message := "Access denied to disk or partition".data
           errorCode := some ("ACCESS_DENIED".data)
           details := some msg },
         ⟨true, true⟩)
      else
        ({ success := false
           message := "Failed to execute Diskpart command".data
           errorCode := some ("COMMAND_EXECUTION_ERROR".data)
           details := some msg },
         ⟨true, true⟩)

/-- Retype a result's `data` field (used to compare the composed result
with the executor's result, whose payloads live in the left summand). -/
def mapResultData {α β : Type} (r : CommandResult α) (f : α → β) : CommandResult β :=
  { success := r.success, message := r.message, errorCode := r.errorCode,
    details := r.details, data := r.data.map f }

/-- `result.data?.output || result.data?.stdout || ''` as read by
`executeAndParse` (a missing field is `undefined`, hence falsy). -/
def payloadOutput : Option ExecPayload → Str
  | some (.full o s _) => jsOrStr o (jsOrStr s [])
  | some (.streams s _) => jsOrStr s []
  | none => []

/-- `executeAndParse`: run the executor, pass failures through unchanged,
otherwise feed the captured text to the parser and wrap its result or its
raised `ParseError` into the envelope.  The second component records
whether the parser was invoked. -/
def executeAndParse {α : Type} (env : ExecEnv) (command : Str) (timeout : Nat)
    (parser : Str → Except Str α) : CommandResult (ExecPayload ⊕ α) × Bool :=
  let result := (executeDiskpartCommand env command timeout).1
  if ¬ result.success then (mapResultData result Sum.inl, false)
  else
    let output := payloadOutput result.data
    match parser output with
    | .ok parsedData =>
      ({ success := true
         message := "Command executed and parsed successfully".data
         data := some (Sum.inr parsedData) },
       true)
    | .error e =>
      ({ success := false
         message := "Failed to parse command output".data
         errorCode := some ("PARSE_ERROR".data)
         details := some e
         data := (mapResultData result Sum.inl).data },
       true)

/-! ### Derived predicates and concrete fixtures used in the statements -/

/-- One of the classifier's two positive markers occurs (case-insensitively). -/
def hasPositiveMarker (s : Str) : Bool :=
  containsSub ("diskpart successfully".data) (jsToLower s) ||
  containsSub ("completed successfully".data) (jsToLower s)

/-- One of the classifier's six negative markers occurs (case-insensitively). -/
def hasNegativeMarker (s : Str) : Bool :=
  containsSub ("error".data) (jsToLower s) ||
  containsSub ("failed".data) (jsToLower s) ||
  containsSub ("access is denied".data) (jsToLower s) ||
  containsSub ("cannot".data) (jsToLower s) ||
  containsSub ("invalid".data) (jsToLower s) ||
  containsSub ("not found".data) (jsToLower s)

/-- One of the three list-header markers occurs (case-insensitively). -/
def hasListHeaderMarker (s : Str) : Bool :=
  containsSub ("disk ###".data) (jsToLower s) ||
  containsSub ("volume ###".data) (jsToLower s) ||
  containsSub ("partition ###".data) (jsToLower s)

/-- A builder result is a raised `InvalidCommandError`. -/
def isInvalidCommandError (r : Except DiskpartErrorInfo Str) : Bool :=
  match r with
  | .error e => e.code = ("INVALID_COMMAND".data)
  | .ok _ => false

/-- `c` is an ASCII letter A-Z, upper or lower case. -/
def azLetter (c : Char) : Bool :=
  ('A' ≤ c && c ≤ 'Z') || ('a' ≤ c && c ≤ 'z')

/-- The string is a single A-Z letter, case-insensitively (the valid-input
condition of the drive-letter builders). -/
def isSingleAzLetter (s : Str) : Bool :=
  match s with
  | [c] => azLetter c
  | _ => false

/-- The error codes of the spec's closed Error Taxonomy (§4.1). -/
def errorTaxonomyCodes : List Str :=
  ["PRIVILEGE_ERROR".data, "DISK_NOT_FOUND".data, "PARTITION_NOT_FOUND".data,
   "COMMAND_EXECUTION_ERROR".data, "COMMAND_TIMEOUT".data, "PARSE_ERROR".data,
   "INVALID_COMMAND".data, "ACCESS_DENIED".data]

/-- The error codes `executeDiskpartCommand` actually produces on failure. -/
def executorFailureCodes : List (Option Str) :=
  [some ("PRIVILEGE_ERROR".data), some ("COMMAND_EXECUTION_ERROR".data),
   some ("COMMAND_FAILED".data), some ("COMMAND_TIMEOUT".data),
   some ("ACCESS_DENIED".data)]

/-- The anchor index of a volume row: first token whose uppercasing lies in
the comparison list, position 4 when none does (as in `parseListVolume`). -/
def fsAnchor (parts : List Str) : Nat :=
  match parts.findIdx? (fun p => (jsToUpper p) ∈ volumeFsList) with
  | some i => i
  | none => 4

/-- The label a volume row actually yields: the space-join of the tokens
from index 3 up to the anchor when the anchor index exceeds 3, absent
otherwise (never the token at index 2, which occupies the letter slot). -/
def labelOfTokens (parts : List Str) : Option Str :=
  if 3 < fsAnchor parts then
    let l := joinSpace ((parts.drop 3).take (fsAnchor parts - 3))
    if l = [] then none else some l
  else none

/-- A parser that always raises, for exercising the `ParseError` path of
`executeAndParse`. -/
def boomParse : Str → Except Str Unit := fun _ => .error ("boom".data)

/-- The spec's canned disk-list output (§8 end-to-end scenario), with the
column layout of the tool: the lone trailing star sits in the Gpt column. -/
def cannedDiskOutput : Str :=
  ("  Disk ###  Status         Size     Free     Dyn  Gpt\n  --------  -------------  -------  -------  ---  ---\n  Disk 0    Online          238 GB      0 B        *\n").data

/-- Disk-list output with one well-formed row and one garbage row. -/
def diskMixedOutput : Str :=
  ("  Disk ###  Status         Size     Free     Dyn  Gpt\n  --------  -------------  -------  -------  ---  ---\n  Disk 1    Online          931 GB   931 GB\n  utter garbage row\n").data

/-- Volume-list output with a row that has a drive letter and a row that
has none (the `Recovery` row of the parser's own doc comment). -/
def volumeMixedOutput : Str :=
  ("  Volume ###  Ltr  Label        Fs     Type        Size     Status     Info\n  ----------  ---  -----------  -----  ----------  -------  ---------  --------\n  Volume 2         Recovery     NTFS   Partition    499 MB  Healthy    Hidden\n  Volume 0     D   Data         NTFS   Partition    100 GB  Healthy\n  utter garbage row\n").data

/-- Partition-list output with one well-formed row and one garbage row. -/
def partitionMixedOutput : Str :=
  ("  Partition ###  Type              Size     Offset\n  -------------  ----------------  -------  -------\n  Partition 1    Primary            100 MB  1024 KB\n  utter garbage row\n").data

/-- Partition-list output whose single data row has six tokens, the sixth
matching the size pattern on its own (`10B`). -/
def partitionSixTokOutput : Str :=
  ("  Partition ###  Type              Size     Offset\n  -------------  ----------------  -------  -------\n  Partition 1    Primary            100 MB  10B\n").data

/-- Partition-list output whose single data row has five tokens (offset
column entirely missing). -/
def partitionFiveTokOutput : Str :=
  ("  Partition ###  Type              Size     Offset\n  -------------  ----------------  -------  -------\n  Partition 2    Primary            137 GB\n").data

/-- Volume-list output with exactly one well-formed row and one garbage
row. -/
def volumeGarbageOutput : Str :=
  ("  Volume ###  Ltr  Label        Fs     Type        Size     Status     Info\n  ----------  ---  -----------  -----  ----------  -------  ---------  --------\n  Volume 0     D   Data         NTFS   Partition    100 GB  Healthy\n  utter garbage row\n").data

/-- The literal text `"undefined"` that JS string concatenation produces
for an out-of-range array element. -/
def undStr : Str := "undefined".data

/-- A trimmed five-token partition data row. -/
def fiveTokLine : Str := ("Partition 2    Primary            137 GB").data

/-- A trimmed volume data row without a drive letter (from the parser's
own doc comment). -/
def noLetterVolumeLine : Str :=
  ("Volume 2         Recovery     NTFS   Partition    499 MB  Healthy    Hidden").data

/-- An environment where every collaborator cooperates and the tool prints
a disk-list header. -/
def envListOk : ExecEnv := ⟨true, true, .completed ("Disk ###\nrow".data) []⟩

/-! ## Shared lemmas about the string primitives -/

theorem isPrefixOfB_iff (n h : Str) : isPrefixOfB n h = true ↔ n <+: h := by
  induction n generalizing h with
  | nil => simp [isPrefixOfB]
  | cons a as ih =>
    cases h with
    | nil => simp [isPrefixOfB]
    | cons b bs => simp [isPrefixOfB, List.cons_prefix_cons, ih]

theorem containsSub_iff (n h : Str) : containsSub n h = true ↔ n <:+: h := by
  induction h with
  | nil =>
    simp [containsSub, isPrefixOfB_iff]
  | cons b bs ih =>
    simp [containsSub, isPrefixOfB_iff, ih, List.infix_cons_iff]

theorem linesJS_cons_newline (cs : Str) : linesJS ('\n' :: cs) = [] :: linesJS cs := by
  rw [linesJS, if_pos rfl]

theorem linesJS_cons_other {c : Char} (cs : Str) (hc : ¬ c = '\n') {l0 : Str}
    {ls : List Str} (he : linesJS cs = l0 :: ls) :
    linesJS (c :: cs) = (c :: l0) :: ls := by
  rw [linesJS, if_neg hc, he]

theorem linesJS_struct (s : Str) :
    ∃ l0 ls, linesJS s = l0 :: ls ∧ l0 <+: s ∧ ∀ l ∈ ls, l <:+: s := by
  induction s with
  | nil => exact ⟨[], [], rfl, List.nil_prefix, by simp⟩
  | cons c cs ih =>
    obtain ⟨l0, ls, he, hp, hm⟩ := ih
    by_cases hc : c = '\n'
    · subst hc
      refine ⟨[], l0 :: ls, by rw [linesJS_cons_newline, he], List.nil_prefix, ?_⟩
      intro l hl
      rcases List.mem_cons.mp hl with h | h
      · subst h; exact List.infix_cons hp.isInfix
      · exact List.infix_cons (hm l h)
    · refine ⟨c :: l0, ls, linesJS_cons_other cs hc he,
        List.cons_prefix_cons.mpr ⟨rfl, hp⟩, ?_⟩
      intro l hl; exact List.infix_cons (hm l hl)

theorem infix_of_mem_linesJS {s l : Str} (h : l ∈ linesJS s) : l <:+: s := by
  obtain ⟨l0, ls, he, hp, hm⟩ := linesJS_struct s
  rw [he] at h
  rcases List.mem_cons.mp h with h | h
  · subst h; exact hp.isInfix
  · exact hm l h

theorem prefix_linesJS_head (s mr : Str) (h : mr <+: s) (hn : '\n' ∉ mr) :
    ∃ l0 ls, linesJS s = l0 :: ls ∧ mr <+: l0 := by
  induction s generalizing mr with
  | nil =>
    have hmr : mr = [] := List.prefix_nil.mp h
    subst hmr
    exact ⟨[], [], rfl, List.nil_prefix⟩
  | cons c cs ih =>
    cases mr with
    | nil =>
      obtain ⟨l0, ls, he, _, _⟩ := linesJS_struct (c :: cs)
      exact ⟨l0, ls, he, List.nil_prefix⟩
    | cons m ms =>
      obtain ⟨hmc, hms⟩ := List.cons_prefix_cons.mp h
      subst hmc
      have hc : ¬ m = '\n' := fun hcc => hn (hcc ▸ List.mem_cons_self m ms)
      obtain ⟨l0, ls, he, hp⟩ := ih ms hms (fun hmm => hn (List.mem_cons_of_mem _ hmm))
      exact ⟨m :: l0, ls, linesJS_cons_other cs hc he, List.cons_prefix_cons.mpr ⟨rfl, hp⟩⟩

theorem infix_linesJS {s marker : Str} (h : marker <:+: s) (hn : '\n' ∉ marker) :
    ∃ l ∈ linesJS s, marker <:+: l := by
  induction s with
  | nil =>
    have hmr : marker = [] := List.infix_nil.mp h
    subst hmr
    exact ⟨[], by simp [linesJS], List.nil_infix⟩
  | cons c cs ih =>
    rcases List.infix_cons_iff.mp h with hpre | hinf
    · obtain ⟨l0, ls, he, hp⟩ := prefix_linesJS_head (c :: cs) marker hpre hn
      exact ⟨l0, by rw [he]; exact List.mem_cons_self _ _, hp.isInfix⟩
    · obtain ⟨l, hl, hml⟩ := ih hinf
      by_cases hc : c = '\n'
      · subst hc
        refine ⟨l, ?_, hml⟩
        rw [linesJS_cons_newline]
        exact List.mem_cons_of_mem _ hl
      · obtain ⟨l0, ls, he, _, _⟩ := linesJS_struct cs
        rw [he] at hl
        rcases List.mem_cons.mp hl with h1 | h1
        · subst h1
          exact ⟨c :: l, by rw [linesJS_cons_other cs hc he]; exact List.mem_cons_self _ _,
            List.infix_cons hml⟩
        · exact ⟨l, by rw [linesJS_cons_other cs hc he]; exact List.mem_cons_of_mem _ h1, hml⟩

theorem infix_dropWhile {c : Char} {mr l : Str} (h : (c :: mr) <:+: l)
    (hc : isWs c = false) : (c :: mr) <:+: l.dropWhile isWs := by
  induction l with
  | nil =>
    exact absurd (List.infix_nil.mp h) (by simp)
  | cons a l' ih =>
    by_cases ha : isWs a
    · rw [List.dropWhile_cons_of_pos ha]
      rcases List.infix_cons_iff.mp h with hpre | hinf
      · obtain ⟨hca, _⟩ := List.cons_prefix_cons.mp hpre
        exact absurd (hca ▸ hc) (by simp [ha])
      · exact ih hinf
    · rwa [List.dropWhile_cons_of_neg ha]

theorem trim_infix_of {marker l : Str} (h : marker <:+: l)
    (hhead : ∃ c mr, marker = c :: mr ∧ isWs c = false)
    (hlast : ∃ c mr, marker.reverse = c :: mr ∧ isWs c = false) :
    marker <:+: trim l := by
  obtain ⟨c, mr, hm, hc⟩ := hhead
  obtain ⟨c2, mr2, hm2, hc2⟩ := hlast
  have h1 : marker <:+: l.dropWhile isWs := by
    rw [hm] at h ⊢; exact infix_dropWhile h hc
  have h2 : marker.reverse <:+: (l.dropWhile isWs).reverse := List.reverse_infix.mpr h1
  have h3 : marker.reverse <:+: ((l.dropWhile isWs).reverse).dropWhile isWs := by
    rw [hm2] at h2 ⊢; exact infix_dropWhile h2 hc2
  have h4 := List.reverse_infix.mpr h3
  simpa [trim] using h4

theorem trim_infix_self (l : Str) : trim l <:+: l := by
  have h1 : l.dropWhile isWs <:+ l := List.dropWhile_suffix _
  have h2 : (l.dropWhile isWs).reverse.dropWhile isWs <:+ (l.dropWhile isWs).reverse :=
    List.dropWhile_suffix _
  have h3 : ((l.dropWhile isWs).reverse.dropWhile isWs).reverse <+: l.dropWhile isWs := by
    rw [← List.reverse_suffix]
    simpa using h2
  exact (h3.isInfix.trans h1.isInfix :)

/-- The header search of the list parsers finds no line exactly when the
marker does not occur anywhere in the raw text, for any marker free of
newlines whose first and last characters are not whitespace. -/
theorem headerFound_iff (marker s : Str) (hn : '\n' ∉ marker)
    (hhead : ∃ c mr, marker = c :: mr ∧ isWs c = false)
    (hlast : ∃ c mr, marker.reverse = c :: mr ∧ isWs c = false) :
    (((linesJS s).map trim).findIdx? (fun line => containsSub marker line) = none) ↔
      containsSub marker s = false := by
  rw [List.findIdx?_eq_none_iff]
  constructor
  · intro hall
    by_contra hcon
    have hms : marker <:+: s := (containsSub_iff _ _).mp (by
      cases hcs : containsSub marker s
      · exact absurd hcs hcon
      · rfl)
    obtain ⟨l, hl, hml⟩ := infix_linesJS hms hn
    have htr : marker <:+: trim l := trim_infix_of hml hhead hlast
    have hfalse := hall (trim l) (List.mem_map_of_mem trim hl)
    rw [(containsSub_iff marker (trim l)).mpr htr] at hfalse
    exact absurd hfalse (by simp)
  · intro hfalse x hx
    rcases List.mem_map.mp hx with ⟨l, hl, rfl⟩
    cases hcs : containsSub marker (trim l)
    · rfl
    · have h1 : marker <:+: trim l := (containsSub_iff _ _).mp hcs
      have h2 : marker <:+: s := (h1.trans (trim_infix_self l)).trans (infix_of_mem_linesJS hl)
      rw [(containsSub_iff marker s).mpr h2] at hfalse
      cases hfalse

/-! ## C1: success classifier -/

/-- C1 (counterexample): an output containing both the positive marker
`completed successfully` and the negative marker `error` is classified as
success, contradicting the claim that any occurrence of a negative marker
yields failure. -/
theorem C1_counterexample :
    isCommandSuccessful ("The operation completed successfully. Error log".data) = true := by
  decide

/-- C1 (amended): the classifier checks the positive markers first, so a
positive marker overrides every negative marker; with no positive marker,
any negative marker yields failure; otherwise a list-header marker or any
non-blank output yields success and blank output yields failure. -/
theorem C1_classifier_amended (s : Str) :
    isCommandSuccessful s =
      (hasPositiveMarker s ||
        (!hasNegativeMarker s &&
          (hasListHeaderMarker s || decide ((trim s).length > 0)))) := by
  simp only [isCommandSuccessful, hasPositiveMarker, hasNegativeMarker, hasListHeaderMarker]
  repeat' split
  all_goals simp_all

/-! ## C2: the canned disk-list scenario -/

/-- C2: on the spec's canned disk-list output the parser returns one
record with `id = 0`, `status = Online`, `size = 238 GiB`, `free = 0` —
but with `diskType = Dynamic` and `partitionStyle = MBR`: the row regex
hands the lone trailing star to the Dyn capture group (and its Gpt group
is unreachable), instead of reading the star's fixed column position,
which in this output is the Gpt column. -/
theorem C2_canned_disk_parse :
    parseListDisk cannedDiskOutput =
      .ok [{ id := some 0, status := .online, size := 238 * 1024 * 1024 * 1024,
             free := 0, isSystemDisk := false, isBootDisk := false,
             diskType := .dynamic, partitionStyle := .mbr, partitions := [] }] := by
  rfl

/-! ## C4: file-system validation of the format builder -/

/-- C4: `buildFormatVolumeCommand` accepts NTFS, FAT32 and FAT in any
casing and renders the uppercased name, but rejects exFAT in every casing
with `InvalidCommandError`: the input is uppercased to `EXFAT` and
compared against a list that still contains the mixed-case `exFAT`. -/
theorem C4_exfat_always_rejected :
    (isInvalidCommandError (buildFormatVolumeCommand ("exFAT".data) none true) = true) ∧
    (isInvalidCommandError (buildFormatVolumeCommand ("EXFAT".data) none true) = true) ∧
    (isInvalidCommandError (buildFormatVolumeCommand ("exfat".data) none true) = true) ∧
    (buildFormatVolumeCommand ("ntfs".data) none true = .ok ("format fs=NTFS quick".data)) ∧
    (buildFormatVolumeCommand ("NTFS".data) none true = .ok ("format fs=NTFS quick".data)) ∧
    (buildFormatVolumeCommand ("fat32".data) none true = .ok ("format fs=FAT32 quick".data)) ∧
    (buildFormatVolumeCommand ("Fat".data) none true = .ok ("format fs=FAT quick".data)) :=
  ⟨by decide, by decide, by decide, rfl, rfl, rfl, rfl⟩

/-! ## C7: privilege short-circuit -/

/-- C7: when the elevation probe reports not elevated, the executor
returns a failing result carrying `PRIVILEGE_ERROR`, and neither writes
the temp script nor spawns a subprocess. -/
theorem C7_privilege_short_circuit (env : ExecEnv) (cmd : Str) (t : Nat)
    (h : env.isAdmin = false) :
    ((executeDiskpartCommand env cmd t).1.success = false) ∧
    ((executeDiskpartCommand env cmd t).1.errorCode = some ("PRIVILEGE_ERROR".data)) ∧
    ((executeDiskpartCommand env cmd t).2.scriptWritten = false) ∧
    ((executeDiskpartCommand env cmd t).2.spawned = false) := by
  simp [executeDiskpartCommand, h]

/-- C7 witness: the short-circuit at a concrete non-elevated environment. -/
theorem C7_privilege_short_circuit_witness :
    ((ExecEnv.mk false true (.completed [] [])).isAdmin = false) ∧
    (((executeDiskpartCommand ⟨false, true, .completed [] []⟩ ("list disk".data) 30000).1.success = false) ∧
     ((executeDiskpartCommand ⟨false, true, .completed [] []⟩ ("list disk".data) 30000).1.errorCode = some ("PRIVILEGE_ERROR".data)) ∧
     ((executeDiskpartCommand ⟨false, true, .completed [] []⟩ ("list disk".data) 30000).2.scriptWritten = false) ∧
     ((executeDiskpartCommand ⟨false, true, .completed [] []⟩ ("list disk".data) 30000).2.spawned = false)) :=
  ⟨rfl, C7_privilege_short_circuit ⟨false, true, .completed [] []⟩ ("list disk".data) 30000 rfl⟩

/-! ## C3: failure codes of the executor -/

/-- C3 (counterexample): output-classified failures carry the literal code
`COMMAND_FAILED`, which is not one of the eight codes of the spec's closed
Error Taxonomy. -/
theorem C3_counterexample :
    ((executeDiskpartCommand ⟨true, true, .completed ("Virtual Disk Service error".data) []⟩
        ("clean".data) 30000).1.success = false) ∧
    ((executeDiskpartCommand ⟨true, true, .completed ("Virtual Disk Service error".data) []⟩
        ("clean".data) 30000).1.errorCode = some ("COMMAND_FAILED".data)) ∧
    (("COMMAND_FAILED".data) ∉ errorTaxonomyCodes) := by
  refine ⟨by decide, by decide, by decide⟩

/-- C3 (amended): every failing result of `executeDiskpartCommand` carries
one of the codes `PRIVILEGE_ERROR`, `COMMAND_EXECUTION_ERROR`,
`COMMAND_FAILED`, `COMMAND_TIMEOUT`, `ACCESS_DENIED` — the taxonomy codes
the executor can raise plus the extra-taxonomy literal `COMMAND_FAILED`
used for output-classified failures — and no exception escapes (every
path returns a `CommandResult`). -/
theorem C3_failure_codes_amended (env : ExecEnv) (cmd : Str) (t : Nat)
    (h : (executeDiskpartCommand env cmd t).1.success = false) :
    (executeDiskpartCommand env cmd t).1.errorCode ∈ executorFailureCodes := by
  rcases env with ⟨adm, wr, sp⟩
  cases adm
  · simp [executeDiskpartCommand, executorFailureCodes]
  · cases wr
    · simp [executeDiskpartCommand, executorFailureCodes]
    · cases sp with
      | completed so se =>
        by_cases hc : isCommandSuccessful (jsOrStr so (jsOrStr se []))
        · exact absurd h (by simp [executeDiskpartCommand, hc])
        · simp [executeDiskpartCommand, hc, executorFailureCodes]
      | killed m => simp [executeDiskpartCommand, executorFailureCodes]
      | errored m =>
        by_cases hd : containsSub ("access is denied".data) (jsToLower m)
        · simp [executeDiskpartCommand, hd, executorFailureCodes]
        · simp [executeDiskpartCommand, hd, executorFailureCodes]

/-- C3 witness: the amended code set at a concrete failing run. -/
theorem C3_failure_codes_amended_witness :
    ((executeDiskpartCommand ⟨false, true, .completed [] []⟩ ("x".data) 1000).1.success = false) ∧
    ((executeDiskpartCommand ⟨false, true, .completed [] []⟩ ("x".data) 1000).1.errorCode ∈
      executorFailureCodes) :=
  ⟨by decide, C3_failure_codes_amended ⟨false, true, .completed [] []⟩ ("x".data) 1000 (by decide)⟩

/-! ## C5: executeAndParse composition -/

/-- C5 (counterexample): when the parser raises, the `details` field of
the failing result carries the parser's error message, not the raw
captured output text (which is preserved in `data` instead). -/
theorem C5_counterexample :
    ((executeAndParse envListOk ("list disk".data) 30000 boomParse).1.errorCode =
       some ("PARSE_ERROR".data)) ∧
    ((executeAndParse envListOk ("list disk".data) 30000 boomParse).1.details =
       some ("boom".data)) ∧
    ((executeAndParse envListOk ("list disk".data) 30000 boomParse).1.details ≠
       some ("Disk ###\nrow".data)) := by
  refine ⟨by decide, by decide, by decide⟩

/-- C5 (amended): on executor failure `executeAndParse` returns the
failure unchanged and never invokes the parser; on executor success with a
raising parser it returns a failing result with code `PARSE_ERROR` whose
`details` field carries the parser's error message while the raw captured
payload is preserved in the `data` field. -/
theorem C5_composition_amended :
    (∀ (α : Type) (env : ExecEnv) (cmd : Str) (t : Nat) (pf : Str → Except Str α),
       (executeDiskpartCommand env cmd t).1.success = false →
       executeAndParse env cmd t pf =
         (mapResultData (executeDiskpartCommand env cmd t).1 Sum.inl, false)) ∧
    (∀ (α : Type) (env : ExecEnv) (cmd : Str) (t : Nat) (pf : Str → Except Str α) (e : Str),
       (executeDiskpartCommand env cmd t).1.success = true →
       pf (payloadOutput (executeDiskpartCommand env cmd t).1.data) = .error e →
       executeAndParse env cmd t pf =
         ({ success := false
            message := ("Failed to parse command output".data)
            errorCode := some ("PARSE_ERROR".data)
            details := some e
            data := (mapResultData (executeDiskpartCommand env cmd t).1 Sum.inl).data }, true)) := by
  constructor
  · intro α env cmd t pf h
    simp [executeAndParse, h]
  · intro α env cmd t pf e h hp
    simp [executeAndParse, h, hp]

/-- C5 witness: both branches of the composition at concrete runs. -/
theorem C5_composition_amended_witness :
    (((executeDiskpartCommand ⟨false, true, .completed [] []⟩ ("x".data) 1000).1.success = false) ∧
     (executeAndParse ⟨false, true, .completed [] []⟩ ("x".data) 1000 boomParse =
       (mapResultData (executeDiskpartCommand ⟨false, true, .completed [] []⟩ ("x".data) 1000).1
          Sum.inl, false))) ∧
    (((executeDiskpartCommand envListOk ("list disk".data) 1000).1.success = true) ∧
     (executeAndParse envListOk ("list disk".data) 1000 boomParse =
       ({ success := false
          message := ("Failed to parse command output".data)
          errorCode := some ("PARSE_ERROR".data)
          details := some ("boom".data)
          data := (mapResultData (executeDiskpartCommand envListOk ("list disk".data) 1000).1
                     Sum.inl).data }, true))) :=
  ⟨⟨by decide,
    C5_composition_amended.1 Unit ⟨false, true, .completed [] []⟩ ("x".data) 1000 boomParse
      (by decide)⟩,
   ⟨by decide,
    C5_composition_amended.2 Unit envListOk ("list disk".data) 1000 boomParse ("boom".data)
      (by decide) rfl⟩⟩

/-! ## C8: builder validation -/

theorem azTest_upper_false {s : Str} (h : isSingleAzLetter s = false) :
    azTest (jsToUpper s) = false := by
  cases s with
  | nil => rfl
  | cons c cs =>
    cases cs with
    | nil =>
      have h' : azLetter c = false := h
      have hlow : ¬ ('a' ≤ c ∧ c ≤ 'z') := by
        intro hcc
        simp [azLetter, hcc.1, hcc.2] at h'
      have hup : ¬ ('A' ≤ c ∧ c ≤ 'Z') := by
        intro hcc
        simp [azLetter, hcc.1, hcc.2] at h'
      have hch : charUpper c = c := by simp [charUpper, hlow]
      show azTest [charUpper c] = false
      rw [hch]
      simp only [azTest, Bool.and_eq_false_iff]
      simp only [decide_eq_false_iff_not]
      by_cases hA : 'A' ≤ c
      · exact Or.inr (fun hZ => hup ⟨hA, hZ⟩)
      · exact Or.inl hA
    | cons c2 cs2 => rfl

/-- C8: every script-builder rejection listed in the claim raises
`InvalidCommandError` (and, the result being `Except.error`, yields no
script): non-integral or negative disk numbers, partition numbers below 1,
non-positive sizes for create/extend/shrink, drive-letter strings that are
not a single A-Z letter case-insensitively, and labels over the
file-system-specific cap (32 for NTFS, 11 otherwise). -/
theorem C8_builder_validation :
    (∀ q : ℚ, ¬ q.den = 1 ∨ q < 0 → isInvalidCommandError (buildSelectDiskCommand q) = true) ∧
    (∀ q : ℚ, q < 1 → isInvalidCommandError (buildSelectPartitionCommand q) = true) ∧
    (∀ q : ℚ, q ≤ 0 → isInvalidCommandError (buildCreatePartitionCommand (some q)) = true) ∧
    (∀ q : ℚ, q ≤ 0 → isInvalidCommandError (buildExtendPartitionCommand (some q)) = true) ∧
    (∀ (q : ℚ) (m : Option ℚ), q ≤ 0 →
       isInvalidCommandError (buildShrinkPartitionCommand q m) = true) ∧
    (∀ s : Str, isSingleAzLetter s = false →
       isInvalidCommandError (buildAssignLetterCommand s) = true) ∧
    (∀ s : Str, isSingleAzLetter s = false →
       isInvalidCommandError (buildRemoveLetterCommand s) = true) ∧
    (∀ (fs lab : Str) (q : Bool),
       ((jsToUpper fs = ("NTFS".data) ∧ 32 < lab.length) ∨
        (¬ jsToUpper fs = ("NTFS".data) ∧ 11 < lab.length)) →
       isInvalidCommandError (buildFormatVolumeCommand fs (some lab) q) = true) := by
  refine ⟨?_, ?_, ?_, ?_, ?_, ?_, ?_, ?_⟩
  · intro q h
    rw [buildSelectDiskCommand, if_pos h]; rfl
  · intro q h
    rw [buildSelectPartitionCommand, if_pos (Or.inr h)]; rfl
  · intro q h
    simp only [buildCreatePartitionCommand]
    rw [if_pos (Or.inr h)]; rfl
  · intro q h
    simp only [buildExtendPartitionCommand]
    rw [if_pos (Or.inr h)]; rfl
  · intro q m h
    simp only [buildShrinkPartitionCommand]
    rw [if_pos (Or.inr h)]; rfl
  · intro s h
    have ha := azTest_upper_false h
    simp only [buildAssignLetterCommand]
    rw [if_pos (by simp [ha])]; rfl
  · intro s h
    have ha := azTest_upper_false h
    simp only [buildRemoveLetterCommand]
    rw [if_pos (by simp [ha])]; rfl
  · intro fs lab q h
    have hlab : ¬ lab = [] := by
      rcases h with ⟨_, hl⟩ | ⟨_, hl⟩ <;> (intro he; subst he; simp at hl)
    rcases h with ⟨hfs, hl⟩ | ⟨hfs, hl⟩
    · simp only [buildFormatVolumeCommand, hfs]
      simp only [if_true, if_pos trivial, eq_self_iff_true, if_neg hlab]
      rw [if_pos hl]
      rfl
    · by_cases hv : jsToUpper fs ∈ validFileSystems
      · simp only [buildFormatVolumeCommand]
        rw [if_neg (not_not_intro hv)]
        rw [if_neg hlab, if_neg hfs, if_pos hl]
        rfl
      · simp only [buildFormatVolumeCommand]
        rw [if_pos hv]; rfl

/-- C8 witness: each rejection at a concrete invalid input. -/
theorem C8_builder_validation_witness :
    ((¬ (-1 : ℚ).den = 1 ∨ (-1 : ℚ) < 0) ∧
      isInvalidCommandError (buildSelectDiskCommand (-1)) = true) ∧
    (((0 : ℚ) < 1) ∧ isInvalidCommandError (buildSelectPartitionCommand 0) = true) ∧
    (((0 : ℚ) ≤ 0) ∧ isInvalidCommandError (buildCreatePartitionCommand (some 0)) = true) ∧
    (((-5 : ℚ) ≤ 0) ∧ isInvalidCommandError (buildExtendPartitionCommand (some (-5))) = true) ∧
    (((0 : ℚ) ≤ 0) ∧ isInvalidCommandError (buildShrinkPartitionCommand 0 none) = true) ∧
    ((isSingleAzLetter ("aa".data) = false) ∧
      isInvalidCommandError (buildAssignLetterCommand ("aa".data)) = true) ∧
    ((isSingleAzLetter ("1".data) = false) ∧
      isInvalidCommandError (buildRemoveLetterCommand ("1".data)) = true) ∧
    (((jsToUpper ("NTFS".data) = ("NTFS".data) ∧
        32 < ("Label456789012345678901234567890123".data).length) ∨
      (¬ jsToUpper ("NTFS".data) = ("NTFS".data) ∧
        11 < ("Label456789012345678901234567890123".data).length)) ∧
      isInvalidCommandError (buildFormatVolumeCommand ("NTFS".data)
        (some ("Label456789012345678901234567890123".data)) true) = true) :=
  ⟨⟨by decide, C8_builder_validation.1 (-1) (by norm_num)⟩,
   ⟨by norm_num, C8_builder_validation.2.1 0 (by norm_num)⟩,
   ⟨by norm_num, C8_builder_validation.2.2.1 0 (by norm_num)⟩,
   ⟨by norm_num, C8_builder_validation.2.2.2.1 (-5) (by norm_num)⟩,
   ⟨by norm_num, C8_builder_validation.2.2.2.2.1 0 none (by norm_num)⟩,
   ⟨by decide, C8_builder_validation.2.2.2.2.2.1 ("aa".data) (by decide)⟩,
   ⟨by decide, C8_builder_validation.2.2.2.2.2.2.1 ("1".data) (by decide)⟩,
   ⟨by decide, C8_builder_validation.2.2.2.2.2.2.2 ("NTFS".data)
      ("Label456789012345678901234567890123".data) true (by decide)⟩⟩

/-! ## C9: header intolerance and row tolerance of the list parsers -/

/-- C9: each list parser raises `ParseError` exactly when its literal
header marker is absent from the text; with the marker present the call
returns a list, and rows that do not match the expected shape are skipped,
so a text with one well-formed row and one garbage row yields exactly one
record without raising. -/
theorem C9_header_and_row_tolerance :
    (∀ s : Str, (∃ e, parseListDisk s = .error e) ↔
       containsSub ("Disk ###".data) s = false) ∧
    (∀ s : Str, (∃ e, parseListVolume s = .error e) ↔
       containsSub ("Volume ###".data) s = false) ∧
    (∀ s : Str, (∃ e, parseListPartition s = .error e) ↔
       containsSub ("Partition ###".data) s = false) ∧
    (parseListDisk diskMixedOutput =
       .ok [{ id := some 1, status := .online, size := 999653638144, free := 999653638144,
              isSystemDisk := false, isBootDisk := false, diskType := .basic,
              partitionStyle := .mbr, partitions := [] }]) ∧
    (parseListVolume volumeGarbageOutput =
       .ok [{ letter := some ['D'], label := some ("Data".data), fileSystem := ("NTFS".data),
              type := .partitionVol, size := 107374182400, status := .healthy, info := [] }]) ∧
    (parseListPartition partitionMixedOutput =
       .ok [{ id := some 1, type := .primary, size := 104857600, offset := 1048576 }]) := by
  refine ⟨?_, ?_, ?_, by rfl, by rfl, by rfl⟩
  · intro s
    have hiff := headerFound_iff ("Disk ###".data) s (by decide)
      ⟨'D', ("isk ###".data), rfl, by decide⟩ ⟨'#', (("Disk ###".data).reverse.drop 1), by decide, by decide⟩
    cases hf : ((linesJS s).map trim).findIdx? (fun line => containsSub ("Disk ###".data) line) with
    | none =>
      simp only [parseListDisk, hf]
      constructor
      · intro _; exact hiff.mp hf
      · intro _; exact ⟨_, rfl⟩
    | some i =>
      have hcs : ¬ containsSub ("Disk ###".data) s = false := fun hc => by
        rw [hiff.mpr hc] at hf; cases hf
      simp only [parseListDisk, hf]
      constructor
      · rintro ⟨e, he⟩; cases he
      · intro hc; exact absurd hc hcs
  · intro s
    have hiff := headerFound_iff ("Volume ###".data) s (by decide)
      ⟨'V', ("olume ###".data), rfl, by decide⟩ ⟨'#', (("Volume ###".data).reverse.drop 1), by decide, by decide⟩
    cases hf : ((linesJS s).map trim).findIdx? (fun line => containsSub ("Volume ###".data) line) with
    | none =>
      simp only [parseListVolume, hf]
      constructor
      · intro _; exact hiff.mp hf
      · intro _; exact ⟨_, rfl⟩
    | some i =>
      have hcs : ¬ containsSub ("Volume ###".data) s = false := fun hc => by
        rw [hiff.mpr hc] at hf; cases hf
      simp only [parseListVolume, hf]
      constructor
      · rintro ⟨e, he⟩; cases he
      · intro hc; exact absurd hc hcs
  · intro s
    have hiff := headerFound_iff ("Partition ###".data) s (by decide)
      ⟨'P', ("artition ###".data), rfl, by decide⟩ ⟨'#', (("Partition ###".data).reverse.drop 1), by decide, by decide⟩
    cases hf : ((linesJS s).map trim).findIdx? (fun line => containsSub ("Partition ###".data) line) with
    | none =>
      simp only [parseListPartition, hf]
      constructor
      · intro _; exact hiff.mp hf
      · intro _; exact ⟨_, rfl⟩
    | some i =>
      have hcs : ¬ containsSub ("Partition ###".data) s = false := fun hc => by
        rw [hiff.mpr hc] at hf; cases hf
      simp only [parseListPartition, hf]
      constructor
      · rintro ⟨e, he⟩; cases he
      · intro hc; exact absurd hc hcs

/-! ## C6: volume label assembly -/

/-- C6 (counterexample): on the no-letter `Recovery` row (from the
parser's own doc comment) the label comes out absent — the token in the
third position is consumed by the drive-letter slot, not included in the
label as the claim states. -/
theorem C6_counterexample :
    parseListVolume volumeMixedOutput =
      .ok [{ letter := none, label := none, fileSystem := ("NTFS".data),
             type := .partitionVol, size := 523239424, status := .healthy,
             info := ("Hidden".data) },
           { letter := some ['D'], label := some ("Data".data), fileSystem := ("NTFS".data),
             type := .partitionVol, size := 107374182400, status := .healthy,
             info := [] }] := by
  rfl

/-- C6 (amended): the parser anchors at the first token whose uppercased
form lies in the comparison list (NTFS/FAT32/FAT/RAW can match; the
mixed-case `exFAT` entry never can), defaulting to position 4; the label
is the space-join of the tokens from index 3 up to the anchor when the
anchor index exceeds 3, and absent otherwise — the token at index 2 always
occupies the drive-letter slot, so rows without a drive letter lose their
first label token. -/
theorem C6_label_amended :
    (∀ line : Str, startsWith ("Volume ".data) line = true → 7 ≤ (words line).length →
       ∃ v, parseVolumeLine line = some v ∧ v.label = labelOfTokens (words line)) ∧
    (parseVolumeLine noLetterVolumeLine =
       some { letter := none, label := none, fileSystem := ("NTFS".data),
              type := .partitionVol, size := 523239424, status := .healthy,
              info := ("Hidden".data) }) := by
  constructor
  · intro line h1 h2
    have hne : ¬ line = [] := fun he => by subst he; exact absurd h1 (by decide)
    simp only [parseVolumeLine]
    rw [if_neg (by simp [hne, h1])]
    rw [if_neg (by omega)]
    refine ⟨_, rfl, ?_⟩
    cases hfi : (words line).findIdx? (fun p => (jsToUpper p) ∈ volumeFsList) with
    | none =>
      simp only [labelOfTokens, fsAnchor, hfi]
      by_cases he : joinSpace (((words line).drop 3).take 1) = [] <;>
        simp [he]
    | some i =>
      simp only [labelOfTokens, fsAnchor, hfi]
      by_cases h3 : 3 < i
      · by_cases he : joinSpace (((words line).drop 3).take (i - 3)) = [] <;>
          simp [h3, he]
      · simp [h3]
  · rfl

/-- C6 witness: the amended label rule at the concrete no-letter row. -/
theorem C6_label_amended_witness :
    (startsWith ("Volume ".data) noLetterVolumeLine = true) ∧
    (7 ≤ (words noLetterVolumeLine).length) ∧
    (∃ v, parseVolumeLine noLetterVolumeLine = some v ∧
       v.label = labelOfTokens (words noLetterVolumeLine)) :=
  ⟨by decide, by decide, C6_label_amended.1 noLetterVolumeLine (by decide) (by decide)⟩

/-! ## C10: partition rows with missing offset tokens -/

theorem takeWhile_append_of_all {p : Char → Bool} {xs : Str} (ys : Str)
    (h : xs.all p = true) : (xs ++ ys).takeWhile p = xs ++ ys.takeWhile p := by
  induction xs with
  | nil => simp
  | cons a as ih =>
    rw [List.all_cons, Bool.and_eq_true] at h
    simp [List.takeWhile_cons, h.1, ih h.2]

theorem dropWhile_append_of_all {p : Char → Bool} {xs : Str} (ys : Str)
    (h : xs.all p = true) : (xs ++ ys).dropWhile p = ys.dropWhile p := by
  induction xs with
  | nil => simp
  | cons a as ih =>
    rw [List.all_cons, Bool.and_eq_true] at h
    simp [List.dropWhile_cons, h.1, ih h.2]

theorem takeWhile_append_of_not_all {p : Char → Bool} {xs : Str} (ys : Str)
    (h : xs.all p = false) : (xs ++ ys).takeWhile p = xs.takeWhile p := by
  induction xs with
  | nil => simp at h
  | cons a as ih =>
    by_cases hpa : p a
    · rw [List.all_cons, hpa, Bool.true_and] at h
      simp [List.takeWhile_cons, hpa, ih h]
    · simp [List.takeWhile_cons, hpa]

theorem dropWhile_append_of_not_all {p : Char → Bool} {xs : Str} (ys : Str)
    (h : xs.all p = false) : (xs ++ ys).dropWhile p = xs.dropWhile p ++ ys := by
  induction xs with
  | nil => simp at h
  | cons a as ih =>
    by_cases hpa : p a
    · rw [List.all_cons, hpa, Bool.true_and] at h
      simp [List.dropWhile_cons, hpa, ih h]
    · simp [List.dropWhile_cons, hpa]

theorem sizeTail_append_und (r : Str) : sizeTail (r ++ ' ' :: undStr) = sizeTail r := by
  cases r with
  | nil => decide
  | cons c rest =>
    cases rest with
    | nil =>
      show sizeTail (c :: ' ' :: undStr) = sizeTail [c]
      by_cases h1 : isKMGT (charUpper c) = true <;> simp [sizeTail, h1] <;> decide
    | cons c2 rest2 => rfl

theorem matchSizeAt_append_und (u : Str) :
    matchSizeAt (u ++ ' ' :: undStr) = matchSizeAt u := by
  by_cases hall : u.all isDigit = true
  · by_cases hu : u = []
    · subst hu; decide
    · have h1 : (u ++ ' ' :: undStr).takeWhile isDigit = u := by
        rw [takeWhile_append_of_all _ hall,
          show (' ' :: undStr).takeWhile isDigit = [] from rfl, List.append_nil]
      have h2 : (u ++ ' ' :: undStr).dropWhile isDigit = ' ' :: undStr := by
        rw [dropWhile_append_of_all _ hall]
        decide
      have h3 : u.takeWhile isDigit = u :=
        List.takeWhile_eq_self_iff.mpr (by simpa [List.all_eq_true] using hall)
      have h4 : u.dropWhile isDigit = [] :=
        List.dropWhile_eq_nil_iff.mpr (by simpa [List.all_eq_true] using hall)
      unfold matchSizeAt
      rw [h1, h2, h3, h4, if_neg hu, if_neg hu]
      rfl
  · have hall' : u.all isDigit = false := by
      cases hv : u.all isDigit
      · rfl
      · exact absurd hv hall
    unfold matchSizeAt
    rw [takeWhile_append_of_not_all _ hall', dropWhile_append_of_not_all _ hall']
    by_cases hds : u.takeWhile isDigit = []
    · rw [if_pos hds, if_pos hds]
    · rw [if_neg hds, if_neg hds]
      by_cases hw : (u.dropWhile isDigit).all isWs = true
      · have hsp : ((u.dropWhile isDigit) ++ [' ']).all isWs = true := by
          rw [List.all_append, hw]
          decide
        have e1 : ((u.dropWhile isDigit) ++ ' ' :: undStr).dropWhile isWs = undStr := by
          rw [show (u.dropWhile isDigit) ++ ' ' :: undStr =
                ((u.dropWhile isDigit) ++ [' ']) ++ undStr by simp]
          rw [dropWhile_append_of_all _ hsp]
          decide
        have e2 : (u.dropWhile isDigit).dropWhile isWs = [] :=
          List.dropWhile_eq_nil_iff.mpr (by simpa [List.all_eq_true] using hw)
        rw [e1, e2]
        rfl
      · have hw' : (u.dropWhile isDigit).all isWs = false := by
          cases hv : (u.dropWhile isDigit).all isWs
          · rfl
          · exact absurd hv hw
        rw [dropWhile_append_of_not_all _ hw', sizeTail_append_und]

theorem sizeFind_append_und (t : Str) : sizeFind (t ++ ' ' :: undStr) = sizeFind t := by
  induction t with
  | nil => decide
  | cons c t ih =>
    have key : matchSizeAt (c :: (t ++ ' ' :: undStr)) = matchSizeAt (c :: t) :=
      matchSizeAt_append_und (c :: t)
    show sizeFind (c :: (t ++ ' ' :: undStr)) = sizeFind (c :: t)
    simp only [sizeFind]
    rw [key]
    cases h : matchSizeAt (c :: t) with
    | none => simpa using ih
    | some r => rfl

theorem parseSize_append_und (t : Str) : parseSize (t ++ ' ' :: undStr) = parseSize t := by
  unfold parseSize
  rw [sizeFind_append_und]

/-- C10 (counterexample): a six-token row whose sixth token itself matches
the size pattern (`10B`) yields offset 10, not 0. -/
theorem C10_counterexample :
    parseListPartition partitionSixTokOutput =
      .ok [{ id := some 1, type := .primary, size := 104857600, offset := 10 }] := by
  rfl

/-- C10 (amended): a partition row of exactly five or six whitespace
tokens is neither skipped nor aborts the parse — a record is emitted; its
offset is the shared size routine applied to the concatenation of the
in-range offset tokens with the text `undefined` standing in for each
out-of-range access, which equals 0 for every five-token row and, for a
six-token row, equals `parseSize` of the sixth token itself (0 unless that
token contains the size pattern). -/
theorem C10_offset_amended :
    (∀ line : Str, startsWith ("Partition ".data) line = true → (words line).length = 5 →
       ∃ p, parsePartitionLine line = some p ∧ p.offset = 0) ∧
    (∀ line : Str, startsWith ("Partition ".data) line = true → (words line).length = 6 →
       ∃ p, parsePartitionLine line = some p ∧
         p.offset = parseSize ((words line).getD 5 [])) ∧
    (parseListPartition partitionFiveTokOutput =
       .ok [{ id := some 2, type := .primary, size := 147102629888, offset := 0 }]) := by
  refine ⟨?_, ?_, by rfl⟩
  · intro line h1 h2
    have hne : ¬ line = [] := fun he => by subst he; exact absurd h1 (by decide)
    simp only [parsePartitionLine]
    rw [if_neg (by simp [hne, h1])]
    rw [if_neg (by omega)]
    refine ⟨_, rfl, ?_⟩
    have h5 : jsIdxStr (words line) 5 = undStr := by
      unfold jsIdxStr
      rw [List.get?_eq_none.mpr (by omega : (words line).length ≤ 5)]
      rfl
    have h6 : jsIdxStr (words line) 6 = undStr := by
      unfold jsIdxStr
      rw [List.get?_eq_none.mpr (by omega : (words line).length ≤ 6)]
      rfl
    show parseSize (jsIdxStr (words line) 5 ++ ' ' :: jsIdxStr (words line) 6) = 0
    rw [h5, h6, parseSize_append_und]
    decide
  · intro line h1 h2
    have hne : ¬ line = [] := fun he => by subst he; exact absurd h1 (by decide)
    have ht6 : ∃ t6, (words line).get? 5 = some t6 := by
      cases hv : (words line).get? 5 with
      | none => rw [List.get?_eq_none] at hv; omega
      | some t => exact ⟨t, rfl⟩
    obtain ⟨t6, ht6⟩ := ht6
    simp only [parsePartitionLine]
    rw [if_neg (by simp [hne, h1])]
    rw [if_neg (by omega)]
    refine ⟨_, rfl, ?_⟩
    have h5 : jsIdxStr (words line) 5 = t6 := by
      unfold jsIdxStr
      rw [ht6]
      rfl
    have h6 : jsIdxStr (words line) 6 = undStr := by
      unfold jsIdxStr
      rw [List.get?_eq_none.mpr (by omega : (words line).length ≤ 6)]
      rfl
    have hg : (words line).getD 5 [] = t6 := by
      rw [List.getD_eq_getElem?_getD, ← List.get?_eq_getElem?, ht6]
      rfl
    show parseSize (jsIdxStr (words line) 5 ++ ' ' :: jsIdxStr (words line) 6) =
      parseSize ((words line).getD 5 [])
    rw [h5, h6, parseSize_append_und, hg]

/-- C10 witness: the amended rule at the concrete five-token row. -/
theorem C10_offset_amended_witness :
    (startsWith ("Partition ".data) fiveTokLine = true) ∧
    ((words fiveTokLine).length = 5) ∧
    (∃ p, parsePartitionLine fiveTokLine = some p ∧ p.offset = 0) :=
  ⟨by decide, by decide, C10_offset_amended.1 fiveTokLine (by decide) (by decide)⟩

end Diskpart
